import Mathlib

/-
Verification of the motion/inertia simulation core and the infinite-tiling
index arithmetic of the portfolio repository: the infinite drag-grid
(createInfiniteGrid), the picker scroll widget (createPickerScroll), the
scroll-velocity tracker (createScrollVelocity), and the page-level camera
loop, embedded shallowly.

Conventions of the embedding:
- JavaScript numbers are modelled as real numbers.
- JavaScript's remainder operator (truncated division, result has the sign
  of the dividend) is Int.tmod.
- Math.floor on a real is Int.floor, Math.pow is Real.rpow,
  Math.exp is Real.exp, Math.hypot is the Euclidean norm,
  Math.max / Math.min are max / min.
- The per-frame callbacks become pure step functions taking the frame's
  dt explicitly; the requestAnimationFrame re-scheduling flag (rafId)
  becomes a Boolean `running` field where a claim needs it.
-/

/-! ## Looping-list / tile index arithmetic (createInfiniteGrid, picker markup) -/

/-- JavaScript double-mod idiom `((x % n) + n) % n`, both `%` truncated. -/
def jsWrap (x n : Int) : Int := (Int.tmod x n + n).tmod n

/-- Looping-list index expression
`((baseIndex + slot) % itemCount + itemCount) % itemCount` from the picker
markup and the infinite-scroll wraparound. -/
def loopIndex (baseIndex slot itemCount : Int) : Int :=
  jsWrap (baseIndex + slot) itemCount

/-- Truncated remainder negates with the dividend. -/
lemma tmod_neg_dividend (a n : Int) : (-a).tmod n = -(a.tmod n) := by
  rw [Int.tmod_def, Int.tmod_def, Int.neg_tdiv]
  ring

/-- For a positive modulus the truncated remainder is above `-n`. -/
lemma neg_lt_tmod (a n : Int) (hn : 0 < n) : -n < a.tmod n := by
  rcases le_or_lt 0 a with ha | ha
  · have h0 : 0 ≤ a.tmod n := Int.tmod_nonneg n ha
    linarith
  · have h1 : (-a).tmod n < n := Int.tmod_lt_of_pos (-a) hn
    have h2 : (-a).tmod n = -(a.tmod n) := tmod_neg_dividend a n
    linarith

/-- The JavaScript double-mod idiom agrees with the Euclidean remainder. -/
lemma jsWrap_eq_emod (x n : Int) (hn : 0 < n) : jsWrap x n = x % n := by
  have hlow : -n < x.tmod n := neg_lt_tmod x n hn
  have hx : 0 ≤ x.tmod n + n := by linarith
  unfold jsWrap
  rw [Int.tmod_eq_emod hx (le_of_lt hn), Int.tmod_def]
  have harr : x - n * x.tdiv n + n = x + n * (1 - x.tdiv n) := by ring
  rw [harr, Int.add_mul_emod_self_left]

/-- C2: for all integers `baseIndex` and `slot` and every `itemCount ≥ 1`, the
looping-list index `((baseIndex + slot) % itemCount + itemCount) % itemCount`
lies in `[0, itemCount)` (also for negative `baseIndex` or `slot`), and it is
periodic in `slot` with period `itemCount`. -/
theorem C2_loopIndex_range_and_period (b s n : Int) (hn : 1 ≤ n) :
    0 ≤ loopIndex b s n ∧ loopIndex b s n < n ∧
      loopIndex b (s + n) n = loopIndex b s n := by
  have hn0 : 0 < n := hn
  unfold loopIndex
  rw [jsWrap_eq_emod _ _ hn0, jsWrap_eq_emod _ _ hn0]
  refine ⟨Int.emod_nonneg _ (by omega), Int.emod_lt_of_pos _ hn0, ?_⟩
  have hshift : b + (s + n) = (b + s) + n * 1 := by ring
  rw [hshift, Int.add_mul_emod_self_left]

/-- C2 witness: the theorem applied at `baseIndex = -7`, `slot = 3`,
`itemCount = 5`. -/
theorem C2_loopIndex_range_and_period_witness :
    0 ≤ loopIndex (-7) 3 5 ∧ loopIndex (-7) 3 5 < 5 ∧
      loopIndex (-7) (3 + 5) 5 = loopIndex (-7) 3 5 :=
  C2_loopIndex_range_and_period (-7) 3 5 (by norm_num)

/-- Backing image index of grid cell `(col, row)` in `computeVisibleTiles`:
`imageIndex = ((row % total) + total) % total`,
`altIndex = ((col % total) + total) % total`,
`finalIndex = (imageIndex + altIndex) % total` (all `%` truncated). -/
def tileImageIndex (total row col : Int) : Int :=
  (jsWrap row total + jsWrap col total).tmod total

/-- One visible tile: world position and backing image index. -/
structure Tile where
  x : Int
  y : Int
  img : Int
deriving DecidableEq

/-- Embedding of `createInfiniteGrid.computeVisibleTiles`: every cell in the
square of half-width `ceil(gridSize / 2)` around the centre cell, row-major,
with its backing image index. -/
def computeVisibleTiles (cellSize total : Int) (gridSize : Nat)
    (centerCol centerRow : Int) : List Tile :=
  (List.range (2 * ((gridSize + 1) / 2) + 1)).flatMap (fun i =>
    (List.range (2 * ((gridSize + 1) / 2) + 1)).map (fun j =>
      let row : Int := centerRow - ((gridSize + 1) / 2 : Nat) + (i : Int)
      let col : Int := centerCol - ((gridSize + 1) / 2 : Nat) + (j : Int)
      { x := col * cellSize, y := row * cellSize,
        img := tileImageIndex total row col }))

/-- C9: with `cellSize = 200`, `gridSize = 7` and an image pool of `20`,
whenever the visible-tile list contains grid cells `(0,0)` (world position
`(0,0)`) and `(-1,0)` (world position `(-200,0)`), the former gets backing
image index `0` and the latter `19`. -/
theorem C9_tile_indices (cC cR : Int) (t : Tile)
    (ht : t ∈ computeVisibleTiles 200 20 7 cC cR) :
    (t.x = 0 ∧ t.y = 0 → t.img = 0) ∧
      (t.x = -200 ∧ t.y = 0 → t.img = 19) := by
  simp only [computeVisibleTiles, List.mem_flatMap, List.mem_map,
    List.mem_range] at ht
  obtain ⟨i, hi, j, hj, rfl⟩ := ht
  constructor
  · rintro ⟨hx, hy⟩
    have hcol : cC - ((7 + 1) / 2 : Nat) + (j : Int) = 0 := by
      simp only at hx; omega
    have hrow : cR - ((7 + 1) / 2 : Nat) + (i : Int) = 0 := by
      simp only at hy; omega
    simp only [hcol, hrow]
    decide
  · rintro ⟨hx, hy⟩
    have hcol : cC - ((7 + 1) / 2 : Nat) + (j : Int) = -1 := by
      simp only at hx; omega
    have hrow : cR - ((7 + 1) / 2 : Nat) + (i : Int) = 0 := by
      simp only at hy; omega
    simp only [hcol, hrow]
    decide

/-- C9 witness: with the centre cell at the origin, the tile of cell `(0,0)`
is in the computed list and the theorem's conclusions hold for it. -/
theorem C9_tile_indices_witness :
    ((⟨0, 0, 0⟩ : Tile) ∈ computeVisibleTiles 200 20 7 0 0) ∧
      (((⟨0, 0, 0⟩ : Tile).x = 0 ∧ (⟨0, 0, 0⟩ : Tile).y = 0 →
          (⟨0, 0, 0⟩ : Tile).img = 0) ∧
        ((⟨0, 0, 0⟩ : Tile).x = -200 ∧ (⟨0, 0, 0⟩ : Tile).y = 0 →
          (⟨0, 0, 0⟩ : Tile).img = 19)) :=
  ⟨by decide, C9_tile_indices 0 0 ⟨0, 0, 0⟩ (by decide)⟩

/-! ## Damped follower step (grid loop, camera loop, picker position easing) -/

/-- One damped-follower step: `current += (target - current) * (1 - exp(-resp * dt))`,
as in `createInfiniteGrid.startLoop`, the page camera loop and
`createPickerScroll.start`. -/
noncomputable def dampStep (current target resp dt : ℝ) : ℝ :=
  current + (target - current) * (1 - Real.exp (-resp * dt))

/-- C1 counterexample: at `current = target` (here both `0`) with
`responseRate = 1 > 0` and `dt = 1 > 0` the distance `|target - current|`
is `0` before and after the step, so it does not strictly decrease. -/
theorem C1_counterexample :
    ¬ (|(0 : ℝ) - dampStep 0 0 1 1| < |(0 : ℝ) - 0|) := by
  have h : dampStep 0 0 1 1 = 0 := by simp [dampStep]
  rw [h]
  simp

/-- C1 (amended): for `responseRate > 0` and the nonnegative `dt` produced by
the loops' clamp, the step returns
`current + (target - current) * (1 - exp(-responseRate * dt))`; at `dt = 0` it
returns `current` unchanged; for `dt > 0` it never crosses `target` from
below, the distance to `target` is multiplied by exactly
`exp(-responseRate * dt)`, and hence strictly decreases whenever
`current ≠ target`. -/
theorem C1_damped_step (c t r dt : ℝ) (hr : 0 < r) (hdt : 0 ≤ dt) :
    dampStep c t r dt = c + (t - c) * (1 - Real.exp (-r * dt))
    ∧ (dt = 0 → dampStep c t r dt = c)
    ∧ (0 < dt → c ≤ t → dampStep c t r dt ≤ t)
    ∧ (0 < dt → |t - dampStep c t r dt| = |t - c| * Real.exp (-r * dt))
    ∧ (0 < dt → c ≠ t → |t - dampStep c t r dt| < |t - c|) := by
  have harr : t - dampStep c t r dt = (t - c) * Real.exp (-r * dt) := by
    unfold dampStep
    ring
  have he : 0 < Real.exp (-r * dt) := Real.exp_pos _
  refine ⟨rfl, ?_, ?_, ?_, ?_⟩
  · intro h0
    simp [dampStep, h0]
  · intro hdt' hct
    nlinarith [mul_nonneg (sub_nonneg.mpr hct) (le_of_lt he)]
  · intro hdt'
    rw [harr, abs_mul, abs_of_pos he]
  · intro hdt' hne
    rw [harr, abs_mul, abs_of_pos he]
    have h1 : Real.exp (-r * dt) < 1 := by
      apply Real.exp_lt_one_iff.mpr
      nlinarith [mul_pos hr hdt']
    exact mul_lt_of_lt_one_right (abs_pos.mpr (sub_ne_zero_of_ne (Ne.symm hne))) h1

/-- C1 witness: the amended theorem applied at `current = 0`, `target = 1`,
`responseRate = 1`, `dt = 1`. -/
theorem C1_damped_step_witness :
    (0 : ℝ) < 1 ∧
      (dampStep 0 1 1 1 = 0 + (1 - 0) * (1 - Real.exp (-1 * 1))
      ∧ ((1 : ℝ) = 0 → dampStep 0 1 1 1 = 0)
      ∧ ((0 : ℝ) < 1 → (0 : ℝ) ≤ 1 → dampStep 0 1 1 1 ≤ 1)
      ∧ ((0 : ℝ) < 1 → |1 - dampStep 0 1 1 1| = |1 - 0| * Real.exp (-1 * 1))
      ∧ ((0 : ℝ) < 1 → (0 : ℝ) ≠ 1 → |1 - dampStep 0 1 1 1| < |1 - 0|)) :=
  ⟨by norm_num, C1_damped_step 0 1 1 1 (by norm_num) (by norm_num)⟩

/-- C6 (amended): the exponential easing used by the grid, camera and picker
loops is frame-rate independent: for a constant target, stepping with `dt₁`
and then `dt₂` gives exactly the step over `dt₁ + dt₂`, so any subdivision of
the same total simulated time yields the same final `current`. -/
theorem C6_exp_easing_framerate_independent (c t r d1 d2 : ℝ) :
    dampStep (dampStep c t r d1) t r d2 = dampStep c t r (d1 + d2) := by
  unfold dampStep
  have h : Real.exp (-r * (d1 + d2)) = Real.exp (-r * d1) * Real.exp (-r * d2) := by
    rw [← Real.exp_add]
    ring_nf
  rw [h]
  ring

/-! ## Scroll-velocity tracker (createScrollVelocity in textureCreator) -/

/-- State of `createScrollVelocity`. -/
structure SVState where
  scrollY : ℝ
  targetScrollY : ℝ
  lastScrollY : ℝ
  velocity : ℝ

/-- Embedding of `createScrollVelocity.update()`: one animation-loop call,
`scrollY += (targetScrollY - scrollY) * 0.1`, then velocity low-pass and decay
by fixed per-call factors; note it takes no `dt`. -/
def svUpdate (s : SVState) : SVState :=
  let sy := s.scrollY + (s.targetScrollY - s.scrollY) * 0.1
  let delta := sy - s.lastScrollY
  let v1 := s.velocity + (delta - s.velocity) * 0.1
  ⟨sy, s.targetScrollY, sy, v1 * 0.85⟩

/-- Closed form of the tracker's position easing from rest toward target `1`:
after `n` update calls `scrollY = 1 - 0.9 ^ n`. -/
lemma svUpdate_scrollY_closed (n : ℕ) :
    (svUpdate^[n] ⟨0, 1, 0, 0⟩).scrollY = 1 - (0.9 : ℝ) ^ n ∧
      (svUpdate^[n] ⟨0, 1, 0, 0⟩).targetScrollY = 1 := by
  induction n with
  | zero => norm_num
  | succ k ih =>
    rw [Function.iterate_succ_apply']
    obtain ⟨h1, h2⟩ := ih
    constructor
    · show (svUpdate^[k] ⟨0, 1, 0, 0⟩).scrollY +
        ((svUpdate^[k] ⟨0, 1, 0, 0⟩).targetScrollY -
          (svUpdate^[k] ⟨0, 1, 0, 0⟩).scrollY) * 0.1 = 1 - (0.9 : ℝ) ^ (k + 1)
      rw [h1, h2]
      ring
    · exact h2

/-- C6 counterexample: the scroll-velocity tracker's `update()` step applies a
fixed per-call factor with no `dt`, so simulating one second of a constant
target as 30 ticks (30 fps) and as 60 ticks (60 fps) yields different final
`scrollY`: the easing is not frame-rate independent. -/
theorem C6_counterexample :
    (svUpdate^[30] ⟨0, 1, 0, 0⟩).scrollY ≠ (svUpdate^[60] ⟨0, 1, 0, 0⟩).scrollY := by
  rw [(svUpdate_scrollY_closed 30).1, (svUpdate_scrollY_closed 60).1]
  intro h
  have hpow : (0.9 : ℝ) ^ 60 < (0.9 : ℝ) ^ 30 :=
    pow_lt_pow_right_of_lt_one₀ (by norm_num) (by norm_num) (by norm_num)
  linarith

/-! ## Picker pure helpers (createPickerScroll) -/

/-- Embedding of the picker's `clamp(n, a, b) = Math.max(a, Math.min(b, n))`. -/
noncomputable def clamp (n a b : ℝ) : ℝ := max a (min b n)

/-- Picker tuning constant `SCROLL_POS_RESP = 14`. -/
def SCROLL_POS_RESP : ℝ := 14

/-- Picker tuning constant `WHEEL_MAX_VEL = 8000`. -/
def WHEEL_MAX_VEL : ℝ := 8000

/-- Picker tuning constant `WHEEL_VEL_DECAY = 14`. -/
def WHEEL_VEL_DECAY : ℝ := 14

/-- Picker tuning constant `STRETCH_RESP_MIN = 3`. -/
def STRETCH_RESP_MIN : ℝ := 3

/-- Picker tuning constant `STRETCH_RESP_MAX = 18`. -/
def STRETCH_RESP_MAX : ℝ := 18

/-- Picker tuning constant `STRETCH_MAX_Y = 1.2`. -/
def STRETCH_MAX_Y : ℝ := 1.2

/-- Picker tuning constant `STRETCH_SIGMA = 0.85`. -/
def STRETCH_SIGMA : ℝ := 0.85

/-- Picker tuning constant `EDGE_SHRINK_MAX_Y = 0.35`. -/
def EDGE_SHRINK_MAX_Y : ℝ := 0.35

/-- Picker tuning constant `MIN_SCALE_Y = 0.55`. -/
def MIN_SCALE_Y : ℝ := 0.55

/-- Embedding of `createPickerScroll.slotWeight`: sharpened Gaussian centre
weight of a slot given the current fractional offset. -/
noncomputable def slotWeight (itemHeight slot frac : ℝ) : ℝ :=
  let dSlots := (slot * itemHeight - frac) / itemHeight
  let sigma := max 0.35 STRETCH_SIGMA
  let x := dSlots / sigma
  (Real.exp (-(x * x) / 2)) ^ (1.8 : ℝ)

/-- Embedding of `createPickerScroll.labelScaleY`. -/
noncomputable def labelScaleY (itemHeight slot frac stretch : ℝ) : ℝ :=
  max (1 + stretch * slotWeight itemHeight slot frac * STRETCH_MAX_Y
        - stretch * (1 - slotWeight itemHeight slot frac) * EDGE_SHRINK_MAX_Y)
      MIN_SCALE_Y

/-- Embedding of `createPickerScroll.labelOpacity`. -/
noncomputable def labelOpacity (itemHeight slot frac : ℝ) : ℝ :=
  0.55 + 0.45 * slotWeight itemHeight slot frac

/-- The sharpened-Gaussian slot weight lies in `(0, 1]`. -/
lemma slotWeight_mem (itemHeight slot frac : ℝ) :
    0 < slotWeight itemHeight slot frac ∧ slotWeight itemHeight slot frac ≤ 1 := by
  unfold slotWeight
  set x := (slot * itemHeight - frac) / itemHeight / max 0.35 STRETCH_SIGMA with hx
  have he0 : 0 < Real.exp (-(x * x) / 2) := Real.exp_pos _
  have he1 : Real.exp (-(x * x) / 2) ≤ 1 := by
    apply Real.exp_le_one_iff.mpr
    nlinarith [mul_self_nonneg x]
  exact ⟨Real.rpow_pos_of_pos he0 _,
    Real.rpow_le_one (le_of_lt he0) he1 (by norm_num)⟩

/-- C5: for every item height, integer slot, fraction, and stretch magnitude
in `[0, 1]`, the per-item scale lies in `[MIN_SCALE_Y, 1 + STRETCH_MAX_Y]`,
that is `[0.55, 2.2]`, and the per-item opacity lies in `[0.55, 1.0]`. -/
theorem C5_stretch_and_opacity_bounds (itemHeight frac stretch : ℝ) (slot : ℤ)
    (h0 : 0 ≤ stretch) (h1 : stretch ≤ 1) :
    0.55 ≤ labelScaleY itemHeight slot frac stretch ∧
      labelScaleY itemHeight slot frac stretch ≤ 2.2 ∧
      0.55 ≤ labelOpacity itemHeight slot frac ∧
      labelOpacity itemHeight slot frac ≤ 1 := by
  obtain ⟨hw0, hw1⟩ := slotWeight_mem itemHeight slot frac
  set w := slotWeight itemHeight (slot : ℝ) frac with hw
  unfold labelScaleY labelOpacity
  rw [← hw]
  unfold STRETCH_MAX_Y EDGE_SHRINK_MAX_Y MIN_SCALE_Y
  refine ⟨le_max_right _ _, ?_, by nlinarith, by nlinarith⟩
  apply max_le ?_ (by norm_num)
  have hsw : stretch * w ≤ 1 := by nlinarith
  nlinarith [mul_nonneg h0 (sub_nonneg.mpr hw1)]

/-- C5 witness: the theorem applied at `itemHeight = 64`, `slot = 1`,
`frac = 10`, `stretch = 1/2`. -/
theorem C5_stretch_and_opacity_bounds_witness :
    (0 : ℝ) ≤ 1 / 2 ∧
      (0.55 ≤ labelScaleY 64 (1 : ℤ) 10 (1 / 2) ∧
        labelScaleY 64 (1 : ℤ) 10 (1 / 2) ≤ 2.2 ∧
        0.55 ≤ labelOpacity 64 (1 : ℤ) 10 ∧
        labelOpacity 64 (1 : ℤ) 10 ≤ 1) :=
  ⟨by norm_num, C5_stretch_and_opacity_bounds 64 10 (1 / 2) 1 (by norm_num) (by norm_num)⟩

/-- Embedding of the picker tick's `base = Math.floor(current / itemHeight)`. -/
noncomputable def pickerBase (itemHeight current : ℝ) : ℤ := ⌊current / itemHeight⌋

/-- Embedding of the picker tick's `frac = current - base * itemHeight`. -/
noncomputable def pickerFrac (itemHeight current : ℝ) : ℝ :=
  current - pickerBase itemHeight current * itemHeight

/-- C3: for every real `current` and every `itemHeight > 0`, the picker tick's
decomposition satisfies the exact round-trip
`base * itemHeight + frac = current` and `frac ∈ [0, itemHeight)`, including
for negative `current`. -/
theorem C3_floor_frac_decomposition (itemHeight current : ℝ) (hH : 0 < itemHeight) :
    (pickerBase itemHeight current : ℝ) * itemHeight + pickerFrac itemHeight current = current ∧
      0 ≤ pickerFrac itemHeight current ∧
      pickerFrac itemHeight current < itemHeight := by
  have hne : itemHeight ≠ 0 := ne_of_gt hH
  have hfr : pickerFrac itemHeight current = itemHeight * Int.fract (current / itemHeight) := by
    unfold pickerFrac pickerBase Int.fract
    field_simp
    ring
  refine ⟨by unfold pickerFrac; ring, ?_, ?_⟩
  · rw [hfr]
    exact mul_nonneg (le_of_lt hH) (Int.fract_nonneg _)
  · rw [hfr]
    nlinarith [Int.fract_lt_one (current / itemHeight)]

/-- C3 witness: the theorem applied at `itemHeight = 2`, `current = -3`. -/
theorem C3_floor_frac_decomposition_witness :
    (0 : ℝ) < 2 ∧
      ((pickerBase 2 (-3) : ℝ) * 2 + pickerFrac 2 (-3) = -3 ∧
        0 ≤ pickerFrac 2 (-3) ∧ pickerFrac 2 (-3) < 2) :=
  ⟨by norm_num, C3_floor_frac_decomposition 2 (-3) (by norm_num)⟩

/-! ## Drag-grid / camera animation loop (createInfiniteGrid.startLoop, startCamLoop) -/

/-- Embedding of `Math.hypot`. -/
noncomputable def hypot (x y : ℝ) : ℝ := Real.sqrt (x ^ 2 + y ^ 2)

lemma hypot_nonneg (x y : ℝ) : 0 ≤ hypot x y := Real.sqrt_nonneg _

lemma hypot_zero : hypot 0 0 = 0 := by
  simp [hypot]

lemma hypot_scale (k x y : ℝ) (hk : 0 ≤ k) :
    hypot (x * k) (y * k) = hypot x y * k := by
  unfold hypot
  rw [show (x * k) ^ 2 + (y * k) ^ 2 = (x ^ 2 + y ^ 2) * k ^ 2 by ring,
    Real.sqrt_mul (by positivity), Real.sqrt_sq hk]

/-- Motion state of the grid / camera loop. -/
structure GridState where
  cx : ℝ
  cy : ℝ
  tx : ℝ
  ty : ℝ
  vx : ℝ
  vy : ℝ

/-- Feel configuration of the loop (the code stores these as constants next
to the loop). -/
structure GridCfg where
  dragResp : ℝ
  inertiaResp : ℝ
  friction : ℝ
  stopSpeed : ℝ

/-- The constants of `createInfiniteGrid`:
`DRAG_RESP = 12`, `INERTIA_RESP = 10`, `FRICTION_PER_SEC = 3.2`,
`STOP_SPEED = 8`. -/
def gridFeel : GridCfg := ⟨12, 10, 3.2, 8⟩

/-- One tick of `createInfiniteGrid.startLoop` / the page `startCamLoop`:
ease current toward target; when not dragging, decay velocity by
`exp(-friction * dt)`, advance target by the decayed velocity times `dt`,
and snap velocity to exactly zero when `hypot(vx, vy) < stopSpeed`. -/
noncomputable def gridTick (cfg : GridCfg) (dragging : Bool) (dt : ℝ)
    (s : GridState) : GridState :=
  let resp := if dragging then cfg.dragResp else cfg.inertiaResp
  let a := 1 - Real.exp (-resp * dt)
  let cx := s.cx + (s.tx - s.cx) * a
  let cy := s.cy + (s.ty - s.cy) * a
  if dragging then
    ⟨cx, cy, s.tx, s.ty, s.vx, s.vy⟩
  else
    let f := Real.exp (-cfg.friction * dt)
    let vx := s.vx * f
    let vy := s.vy * f
    let tx := s.tx + vx * dt
    let ty := s.ty + vy * dt
    if hypot vx vy < cfg.stopSpeed then ⟨cx, cy, tx, ty, 0, 0⟩
    else ⟨cx, cy, tx, ty, vx, vy⟩

/-- C7: while a drag is active the tick leaves velocity and target untouched;
on a tick with no drag active, velocity is first multiplied by
`exp(-frictionPerSecond * dt)`, the target then advances by that decayed
velocity times `dt`, and the velocity is set to exactly zero (the literal
constant `0`) precisely when its magnitude falls below the `stopSpeed`
threshold. -/
theorem C7_inertia_step (cfg : GridCfg) (dt : ℝ) (s : GridState) :
    ((gridTick cfg true dt s).vx = s.vx ∧ (gridTick cfg true dt s).vy = s.vy ∧
      (gridTick cfg true dt s).tx = s.tx ∧ (gridTick cfg true dt s).ty = s.ty) ∧
    ((gridTick cfg false dt s).tx
        = s.tx + s.vx * Real.exp (-cfg.friction * dt) * dt ∧
      (gridTick cfg false dt s).ty
        = s.ty + s.vy * Real.exp (-cfg.friction * dt) * dt ∧
      (gridTick cfg false dt s).vx
        = (if hypot (s.vx * Real.exp (-cfg.friction * dt))
                (s.vy * Real.exp (-cfg.friction * dt)) < cfg.stopSpeed
            then 0 else s.vx * Real.exp (-cfg.friction * dt)) ∧
      (gridTick cfg false dt s).vy
        = (if hypot (s.vx * Real.exp (-cfg.friction * dt))
                (s.vy * Real.exp (-cfg.friction * dt)) < cfg.stopSpeed
            then 0 else s.vy * Real.exp (-cfg.friction * dt))) := by
  refine ⟨by simp [gridTick], ?_⟩
  by_cases h : hypot (s.vx * Real.exp (-(cfg.friction * dt)))
      (s.vy * Real.exp (-(cfg.friction * dt))) < cfg.stopSpeed
  · simp [gridTick, h, neg_mul]
  · simp [gridTick, h, neg_mul]

/-- Per tick (no drag), the speed is reduced at least by the friction
factor: snapping only ever lowers it to `0`. -/
lemma gridTick_speed_le (cfg : GridCfg) (dt : ℝ) (s : GridState) :
    hypot (gridTick cfg false dt s).vx (gridTick cfg false dt s).vy ≤
      hypot s.vx s.vy * Real.exp (-(cfg.friction * dt)) := by
  have hf0 : (0 : ℝ) ≤ Real.exp (-(cfg.friction * dt)) := le_of_lt (Real.exp_pos _)
  by_cases h : hypot (s.vx * Real.exp (-(cfg.friction * dt)))
      (s.vy * Real.exp (-(cfg.friction * dt))) < cfg.stopSpeed
  · simp only [gridTick, neg_mul, if_false, Bool.false_eq_true, if_pos h]
    rw [hypot_zero]
    exact mul_nonneg (hypot_nonneg _ _) hf0
  · simp only [gridTick, neg_mul, if_false, Bool.false_eq_true, if_neg h]
    exact le_of_eq (hypot_scale _ s.vx s.vy hf0)

/-- Iterated ticks decay the speed geometrically. -/
lemma gridIter_speed_le (cfg : GridCfg) (dt : ℝ) (s : GridState) (k : ℕ) :
    hypot ((gridTick cfg false dt)^[k] s).vx ((gridTick cfg false dt)^[k] s).vy ≤
      hypot s.vx s.vy * Real.exp (-(cfg.friction * dt)) ^ k := by
  induction k with
  | zero => simp
  | succ m ih =>
    rw [Function.iterate_succ_apply']
    have h1 := gridTick_speed_le cfg dt ((gridTick cfg false dt)^[m] s)
    have h2 := mul_le_mul_of_nonneg_right ih (le_of_lt (Real.exp_pos (-(cfg.friction * dt))))
    have h3 : hypot s.vx s.vy * Real.exp (-(cfg.friction * dt)) ^ m *
        Real.exp (-(cfg.friction * dt)) =
        hypot s.vx s.vy * Real.exp (-(cfg.friction * dt)) ^ (m + 1) := by ring
    linarith

/-- When the decayed speed is below the threshold, the tick snaps the
velocity to exactly zero. -/
lemma gridTick_snap (cfg : GridCfg) (dt : ℝ) (s : GridState)
    (h : hypot (s.vx * Real.exp (-(cfg.friction * dt)))
      (s.vy * Real.exp (-(cfg.friction * dt))) < cfg.stopSpeed) :
    (gridTick cfg false dt s).vx = 0 ∧ (gridTick cfg false dt s).vy = 0 := by
  simp [gridTick, neg_mul, h]

/-- From a zero-velocity state the velocity stays zero, the target freezes,
and each tick multiplies the target-to-current gap by
`exp(-inertiaResp * dt)`. -/
lemma gridIter_settle (cfg : GridCfg) (dt : ℝ) (hstop : 0 < cfg.stopSpeed)
    (s : GridState) (hvx : s.vx = 0) (hvy : s.vy = 0) (k : ℕ) :
    ((gridTick cfg false dt)^[k] s).vx = 0 ∧
      ((gridTick cfg false dt)^[k] s).vy = 0 ∧
      ((gridTick cfg false dt)^[k] s).tx = s.tx ∧
      ((gridTick cfg false dt)^[k] s).ty = s.ty ∧
      ((gridTick cfg false dt)^[k] s).tx - ((gridTick cfg false dt)^[k] s).cx
        = (s.tx - s.cx) * Real.exp (-(cfg.inertiaResp * dt)) ^ k ∧
      ((gridTick cfg false dt)^[k] s).ty - ((gridTick cfg false dt)^[k] s).cy
        = (s.ty - s.cy) * Real.exp (-(cfg.inertiaResp * dt)) ^ k := by
  induction k with
  | zero => simp [hvx, hvy]
  | succ m ih =>
    obtain ⟨ivx, ivy, itx, ity, igx, igy⟩ := ih
    rw [Function.iterate_succ_apply']
    set sm := (gridTick cfg false dt)^[m] s with hsm
    have hcond : hypot (sm.vx * Real.exp (-(cfg.friction * dt)))
        (sm.vy * Real.exp (-(cfg.friction * dt))) < cfg.stopSpeed := by
      rw [ivx, ivy]
      simpa [hypot_zero] using hstop
    simp only [gridTick, neg_mul, if_false, Bool.false_eq_true, if_pos hcond]
    refine ⟨trivial, trivial, by simp [ivx, itx], by simp [ivy, ity], ?_, ?_⟩
    · linear_combination Real.exp (-(cfg.inertiaResp * dt)) * igx +
        Real.exp (-(cfg.friction * dt)) * dt * ivx
    · linear_combination Real.exp (-(cfg.inertiaResp * dt)) * igy +
        Real.exp (-(cfg.friction * dt)) * dt * ivy

/-- C4: after release (no drag active), for any positive friction, inertia
response, stop threshold and settle epsilon, and any fixed `dt > 0` per tick,
the loop reaches from any state (any bounded release velocity) a state with
velocity snapped to exactly zero and target-to-current distance below the
settle epsilon — the state in which the loop does not reschedule itself —
within a finite number of ticks. -/
theorem C4_animation_terminates (cfg : GridCfg) (dt eps : ℝ) (s : GridState)
    (hfr : 0 < cfg.friction) (hresp : 0 < cfg.inertiaResp)
    (hstop : 0 < cfg.stopSpeed) (hdt : 0 < dt) (heps : 0 < eps) :
    ∃ n : ℕ,
      ((gridTick cfg false dt)^[n] s).vx = 0 ∧
      ((gridTick cfg false dt)^[n] s).vy = 0 ∧
      hypot ((gridTick cfg false dt)^[n] s).vx ((gridTick cfg false dt)^[n] s).vy = 0 ∧
      hypot (((gridTick cfg false dt)^[n] s).tx - ((gridTick cfg false dt)^[n] s).cx)
        (((gridTick cfg false dt)^[n] s).ty - ((gridTick cfg false dt)^[n] s).cy) < eps := by
  have hf0 : (0 : ℝ) < Real.exp (-(cfg.friction * dt)) := Real.exp_pos _
  have hf1 : Real.exp (-(cfg.friction * dt)) < 1 := by
    apply Real.exp_lt_one_iff.mpr
    nlinarith
  have hg0 : (0 : ℝ) < Real.exp (-(cfg.inertiaResp * dt)) := Real.exp_pos _
  have hg1 : Real.exp (-(cfg.inertiaResp * dt)) < 1 := by
    apply Real.exp_lt_one_iff.mpr
    nlinarith
  have hsp0 : 0 ≤ hypot s.vx s.vy := hypot_nonneg _ _
  obtain ⟨m, hm⟩ := exists_pow_lt_of_lt_one
    (div_pos hstop (by linarith : (0 : ℝ) < hypot s.vx s.vy + 1)) hf1
  have hmm : hypot s.vx s.vy * Real.exp (-(cfg.friction * dt)) ^ m < cfg.stopSpeed := by
    have h1 := (lt_div_iff (by linarith : (0 : ℝ) < hypot s.vx s.vy + 1)).mp hm
    have hpw : 0 ≤ Real.exp (-(cfg.friction * dt)) ^ m := by positivity
    nlinarith
  have hv1 : ((gridTick cfg false dt)^[m + 1] s).vx = 0 ∧
      ((gridTick cfg false dt)^[m + 1] s).vy = 0 := by
    rw [Function.iterate_succ_apply']
    apply gridTick_snap
    rw [hypot_scale _ _ _ (le_of_lt hf0)]
    have hsm := gridIter_speed_le cfg dt s m
    have hmul : hypot ((gridTick cfg false dt)^[m] s).vx
          ((gridTick cfg false dt)^[m] s).vy * Real.exp (-(cfg.friction * dt)) ≤
        hypot s.vx s.vy * Real.exp (-(cfg.friction * dt)) ^ m *
          Real.exp (-(cfg.friction * dt)) :=
      mul_le_mul_of_nonneg_right hsm (le_of_lt hf0)
    nlinarith [mul_nonneg hsp0 (pow_nonneg (le_of_lt hf0) m)]
  obtain ⟨h1x, h1y⟩ := hv1
  have hD0 : 0 ≤ hypot (((gridTick cfg false dt)^[m + 1] s).tx -
      ((gridTick cfg false dt)^[m + 1] s).cx)
      (((gridTick cfg false dt)^[m + 1] s).ty -
      ((gridTick cfg false dt)^[m + 1] s).cy) := hypot_nonneg _ _
  obtain ⟨k, hk⟩ := exists_pow_lt_of_lt_one
    (div_pos heps (by linarith : (0 : ℝ) < hypot (((gridTick cfg false dt)^[m + 1] s).tx -
      ((gridTick cfg false dt)^[m + 1] s).cx)
      (((gridTick cfg false dt)^[m + 1] s).ty -
      ((gridTick cfg false dt)^[m + 1] s).cy) + 1)) hg1
  refine ⟨k + (m + 1), ?_⟩
  rw [Function.iterate_add_apply]
  obtain ⟨jvx, jvy, jtx, jty, jgx, jgy⟩ :=
    gridIter_settle cfg dt hstop ((gridTick cfg false dt)^[m + 1] s) h1x h1y k
  refine ⟨jvx, jvy, by rw [jvx, jvy]; exact hypot_zero, ?_⟩
  rw [jgx, jgy, hypot_scale _ _ _ (pow_nonneg (le_of_lt hg0) k)]
  have h2 := (lt_div_iff (by linarith : (0 : ℝ) < hypot (((gridTick cfg false dt)^[m + 1] s).tx -
      ((gridTick cfg false dt)^[m + 1] s).cx)
      (((gridTick cfg false dt)^[m + 1] s).ty -
      ((gridTick cfg false dt)^[m + 1] s).cy) + 1)).mp hk
  nlinarith [pow_nonneg (le_of_lt hg0) k]

/-- C4 witness: the theorem applied with the source constants
(`FRICTION_PER_SEC = 3.2`, `INERTIA_RESP = 10`, `STOP_SPEED = 8`, settle
epsilon `0.25`), `dt = 1/60`, from the post-release state
`current = (0,0)`, `target = (100,0)`, `velocity = (500,0)`. -/
theorem C4_animation_terminates_witness :
    (0 : ℝ) < gridFeel.friction ∧
      ∃ n : ℕ,
        ((gridTick gridFeel false (1 / 60))^[n] ⟨0, 0, 100, 0, 500, 0⟩).vx = 0 ∧
        ((gridTick gridFeel false (1 / 60))^[n] ⟨0, 0, 100, 0, 500, 0⟩).vy = 0 ∧
        hypot ((gridTick gridFeel false (1 / 60))^[n] ⟨0, 0, 100, 0, 500, 0⟩).vx
          ((gridTick gridFeel false (1 / 60))^[n] ⟨0, 0, 100, 0, 500, 0⟩).vy = 0 ∧
        hypot (((gridTick gridFeel false (1 / 60))^[n] ⟨0, 0, 100, 0, 500, 0⟩).tx -
            ((gridTick gridFeel false (1 / 60))^[n] ⟨0, 0, 100, 0, 500, 0⟩).cx)
          (((gridTick gridFeel false (1 / 60))^[n] ⟨0, 0, 100, 0, 500, 0⟩).ty -
            ((gridTick gridFeel false (1 / 60))^[n] ⟨0, 0, 100, 0, 500, 0⟩).cy)
          < 0.25 :=
  ⟨by norm_num [gridFeel],
    C4_animation_terminates gridFeel (1 / 60) 0.25 ⟨0, 0, 100, 0, 500, 0⟩
      (by norm_num [gridFeel]) (by norm_num [gridFeel]) (by norm_num [gridFeel])
      (by norm_num) (by norm_num)⟩

/-! ## Picker controller state machine (createPickerScroll.start / onWheel) -/

/-- Controller state of `createPickerScroll`: scroll target and current,
stretch magnitude, last wheel direction, smoothed wheel speed, and whether
the animation loop is scheduled (`rafId !== null`). The per-tick derived
stores `scrollBaseIndex` / `scrollFrac` are the pure decomposition
`pickerBase` / `pickerFrac` of `current` and carry no state of their own. -/
structure PickerState where
  target : ℝ
  current : ℝ
  stretch : ℝ
  dir : ℝ
  ws : ℝ
  running : Bool

/-- Wheel-speed decay of one picker tick:
`ws *= exp(-WHEEL_VEL_DECAY * dt); if (ws < 5) ws = 0`. -/
noncomputable def wheelDecay (dt ws : ℝ) : ℝ :=
  if ws * Real.exp (-WHEEL_VEL_DECAY * dt) < 5 then 0
  else ws * Real.exp (-WHEEL_VEL_DECAY * dt)

/-- Stretch easing of one picker tick, fed the already-decayed wheel speed:
`speedNorm = clamp(ws / WHEEL_MAX_VEL, 0, 1)`,
`desired = clamp(speedNorm ^ 0.62, 0, 1)`, response interpolated between
`STRETCH_RESP_MIN` and `STRETCH_RESP_MAX`, then
`stretch += (desired - stretch) * (1 - exp(-resp * dt))`. -/
noncomputable def stretchStep (dt ws stretch : ℝ) : ℝ :=
  let speedNorm := clamp (ws / WHEEL_MAX_VEL) 0 1
  let desired := clamp (speedNorm ^ (0.62 : ℝ)) 0 1
  let resp := STRETCH_RESP_MIN + (STRETCH_RESP_MAX - STRETCH_RESP_MIN) * speedNorm
  stretch + (desired - stretch) * (1 - Real.exp (-resp * dt))

/-- One frame of `createPickerScroll.start`'s tick: ease current toward
target, decay and possibly snap the wheel speed, ease the stretch toward the
speed-derived desired value, and clear `running` when the stop condition
`dist < 0.6 && stretch < 0.01 && ws === 0` holds. A state whose loop is not
scheduled is unchanged. -/
noncomputable def pickerTick (dt : ℝ) (s : PickerState) : PickerState :=
  if s.running then
    let current := dampStep s.current s.target SCROLL_POS_RESP dt
    let ws := wheelDecay dt s.ws
    let stretch := stretchStep dt ws s.stretch
    ⟨s.target, current, stretch, s.dir, ws,
      if |s.target - current| < 0.6 ∧ stretch < 0.01 ∧ ws = 0 then false
      else true⟩
  else s

/-- Embedding of `createPickerScroll.onWheel`: advance the target by
`deltaY`, set the direction from the sign of `deltaY` (kept when zero),
low-pass the instantaneous speed `|deltaY| / dt` into the wheel speed with
factor `0.55` (`dt = max(0.001, elapsed ms / 1000)`; a first event has
elapsed `0`), and start the loop. -/
noncomputable def pickerOnWheel (dy elapsedMs : ℝ) (s : PickerState) : PickerState :=
  let dir := if dy = 0 then s.dir else if 0 < dy then 1 else -1
  let dt := max 0.001 (elapsedMs / 1000)
  let inst := |dy| / dt
  ⟨s.target + dy, s.current, s.stretch, dir, s.ws + (inst - s.ws) * 0.55, true⟩

lemma clamp_mem (n a b : ℝ) (hab : a ≤ b) :
    a ≤ clamp n a b ∧ clamp n a b ≤ b :=
  ⟨le_max_left _ _, max_le hab (min_le_left _ _)⟩

lemma wheelDecay_nonneg (dt ws : ℝ) (h : 0 ≤ ws) : 0 ≤ wheelDecay dt ws := by
  unfold wheelDecay
  split
  · exact le_refl 0
  · exact mul_nonneg h (le_of_lt (Real.exp_pos _))

lemma wheelDecay_le (dt ws : ℝ) (h : 0 ≤ ws) :
    wheelDecay dt ws ≤ ws * Real.exp (-WHEEL_VEL_DECAY * dt) := by
  unfold wheelDecay
  split
  · exact mul_nonneg h (le_of_lt (Real.exp_pos _))
  · exact le_refl _

lemma wheelDecay_snap (dt ws : ℝ)
    (h : ws * Real.exp (-WHEEL_VEL_DECAY * dt) < 5) : wheelDecay dt ws = 0 :=
  if_pos h

lemma stretchStep_mem (dt ws stretch : ℝ) (hdt : 0 ≤ dt)
    (h0 : 0 ≤ stretch) (h1 : stretch ≤ 1) :
    0 ≤ stretchStep dt ws stretch ∧ stretchStep dt ws stretch ≤ 1 := by
  unfold stretchStep
  dsimp only
  obtain ⟨hn0, hn1⟩ := clamp_mem (ws / WHEEL_MAX_VEL) 0 1 (by norm_num)
  obtain ⟨hd0, hd1⟩ :=
    clamp_mem (clamp (ws / WHEEL_MAX_VEL) 0 1 ^ (0.62 : ℝ)) 0 1 (by norm_num)
  set sn := clamp (ws / WHEEL_MAX_VEL) 0 1
  set d := clamp (sn ^ (0.62 : ℝ)) 0 1
  have hresp : 0 ≤ (STRETCH_RESP_MIN + (STRETCH_RESP_MAX - STRETCH_RESP_MIN) * sn) * dt := by
    unfold STRETCH_RESP_MIN STRETCH_RESP_MAX
    nlinarith
  have ha0 : 0 ≤ 1 - Real.exp (-(STRETCH_RESP_MIN + (STRETCH_RESP_MAX - STRETCH_RESP_MIN) * sn) * dt) := by
    have := Real.exp_le_one_iff.mpr (by nlinarith :
      -(STRETCH_RESP_MIN + (STRETCH_RESP_MAX - STRETCH_RESP_MIN) * sn) * dt ≤ 0)
    linarith
  have ha1 : 1 - Real.exp (-(STRETCH_RESP_MIN + (STRETCH_RESP_MAX - STRETCH_RESP_MIN) * sn) * dt) ≤ 1 := by
    have := Real.exp_pos (-(STRETCH_RESP_MIN + (STRETCH_RESP_MAX - STRETCH_RESP_MIN) * sn) * dt)
    linarith
  constructor
  · nlinarith
  · nlinarith

/-- C10: states with nonnegative wheel speed and stretch in `[0, 1]` are
preserved by every tick (with the nonnegative `dt` the loop produces) and by
every `onWheel` event; the desired stretch is clamped to `[0, 1]` and the
stored stretch moves by a convex combination toward it, so no input sequence
started from `wheelSpeed = 0`, `stretch = 0` can leave the region. -/
theorem C10_picker_state_invariant (s : PickerState) (dt dy elapsedMs : ℝ)
    (hdt : 0 ≤ dt) (hws : 0 ≤ s.ws) (hs0 : 0 ≤ s.stretch) (hs1 : s.stretch ≤ 1) :
    (0 ≤ (pickerTick dt s).ws ∧ 0 ≤ (pickerTick dt s).stretch ∧
      (pickerTick dt s).stretch ≤ 1) ∧
    (0 ≤ (pickerOnWheel dy elapsedMs s).ws ∧
      0 ≤ (pickerOnWheel dy elapsedMs s).stretch ∧
      (pickerOnWheel dy elapsedMs s).stretch ≤ 1) := by
  constructor
  · by_cases hr : s.running
    · have hwd := wheelDecay_nonneg dt s.ws hws
      have hst := stretchStep_mem dt (wheelDecay dt s.ws) s.stretch hdt hs0 hs1
      simp only [pickerTick, if_pos hr]
      exact ⟨hwd, hst.1, hst.2⟩
    · simp only [pickerTick, if_neg hr]
      exact ⟨hws, hs0, hs1⟩
  · have hdt' : (0 : ℝ) < max 0.001 (elapsedMs / 1000) :=
      lt_of_lt_of_le (by norm_num) (le_max_left _ _)
    have hinst : 0 ≤ |dy| / max 0.001 (elapsedMs / 1000) :=
      div_nonneg (abs_nonneg dy) (le_of_lt hdt')
    refine ⟨?_, hs0, hs1⟩
    show 0 ≤ s.ws + (|dy| / max 0.001 (elapsedMs / 1000) - s.ws) * 0.55
    nlinarith

/-- C10 witness: the theorem applied at the rest state
(`wheelSpeed = 0`, `stretch = 0`, loop running) with `dt = 1/60`,
`deltaY = 120`, elapsed `16` ms. -/
theorem C10_picker_state_invariant_witness :
    (0 : ℝ) ≤ 1 / 60 ∧
      ((0 ≤ (pickerTick (1 / 60) ⟨0, 0, 0, 1, 0, true⟩).ws ∧
        0 ≤ (pickerTick (1 / 60) ⟨0, 0, 0, 1, 0, true⟩).stretch ∧
        (pickerTick (1 / 60) ⟨0, 0, 0, 1, 0, true⟩).stretch ≤ 1) ∧
      (0 ≤ (pickerOnWheel 120 16 ⟨0, 0, 0, 1, 0, true⟩).ws ∧
        0 ≤ (pickerOnWheel 120 16 ⟨0, 0, 0, 1, 0, true⟩).stretch ∧
        (pickerOnWheel 120 16 ⟨0, 0, 0, 1, 0, true⟩).stretch ≤ 1)) :=
  ⟨by norm_num,
    C10_picker_state_invariant ⟨0, 0, 0, 1, 0, true⟩ (1 / 60) 120 16
      (by norm_num) (by norm_num) (by norm_num) (by norm_num)⟩

lemma pickerTick_run_ws (dt : ℝ) (s : PickerState) (hr : s.running = true) :
    (pickerTick dt s).ws = wheelDecay dt s.ws := by
  simp [pickerTick, hr]

lemma pickerTick_run_stretch (dt : ℝ) (s : PickerState) (hr : s.running = true) :
    (pickerTick dt s).stretch = stretchStep dt (wheelDecay dt s.ws) s.stretch := by
  simp [pickerTick, hr]

lemma pickerTick_run_target (dt : ℝ) (s : PickerState) (hr : s.running = true) :
    (pickerTick dt s).target = s.target := by
  simp [pickerTick, hr]

lemma pickerTick_run_running (dt : ℝ) (s : PickerState) (hr : s.running = true) :
    (pickerTick dt s).running =
      if |s.target - dampStep s.current s.target SCROLL_POS_RESP dt| < 0.6 ∧
          stretchStep dt (wheelDecay dt s.ws) s.stretch < 0.01 ∧
          wheelDecay dt s.ws = 0
        then false else true := by
  simp [pickerTick, hr]

/-- The tick only clears `running` when its stop condition holds, and the
stop condition includes `ws === 0`. -/
lemma pickerTick_run_stop (dt : ℝ) (s : PickerState) (hr : s.running = true)
    (h : (pickerTick dt s).running = false) : (pickerTick dt s).ws = 0 := by
  by_cases hP : |s.target - dampStep s.current s.target SCROLL_POS_RESP dt| < 0.6 ∧
      stretchStep dt (wheelDecay dt s.ws) s.stretch < 0.01 ∧ wheelDecay dt s.ws = 0
  · rw [pickerTick_run_ws dt s hr]
    exact hP.2.2
  · rw [pickerTick_run_running dt s hr, if_neg hP] at h
    exact Bool.noConfusion h

lemma pickerTick_stopped (dt : ℝ) (s : PickerState) (hrf : s.running = false) :
    pickerTick dt s = s := by
  simp [pickerTick, hrf]

/-- Easing a positive stretch keeps it positive (the desired value is
clamped to be nonnegative and the blend factor lies in `[0, 1)`). -/
lemma stretchStep_pos_of_pos (dt ws stretch : ℝ) (hdt : 0 ≤ dt)
    (hst : 0 < stretch) : 0 < stretchStep dt ws stretch := by
  unfold stretchStep
  dsimp only
  obtain ⟨hn0, hn1⟩ := clamp_mem (ws / WHEEL_MAX_VEL) 0 1 (by norm_num)
  obtain ⟨hd0, hd1⟩ :=
    clamp_mem (clamp (ws / WHEEL_MAX_VEL) 0 1 ^ (0.62 : ℝ)) 0 1 (by norm_num)
  set sn := clamp (ws / WHEEL_MAX_VEL) 0 1
  set d := clamp (sn ^ (0.62 : ℝ)) 0 1
  have hresp : 0 ≤ (STRETCH_RESP_MIN + (STRETCH_RESP_MAX - STRETCH_RESP_MIN) * sn) * dt := by
    unfold STRETCH_RESP_MIN STRETCH_RESP_MAX
    nlinarith
  have ha0 : 0 ≤ 1 - Real.exp (-(STRETCH_RESP_MIN + (STRETCH_RESP_MAX - STRETCH_RESP_MIN) * sn) * dt) := by
    have := Real.exp_le_one_iff.mpr (by nlinarith :
      -(STRETCH_RESP_MIN + (STRETCH_RESP_MAX - STRETCH_RESP_MIN) * sn) * dt ≤ 0)
    linarith
  have ha1 : 1 - Real.exp (-(STRETCH_RESP_MIN + (STRETCH_RESP_MAX - STRETCH_RESP_MIN) * sn) * dt) < 1 := by
    have := Real.exp_pos (-(STRETCH_RESP_MIN + (STRETCH_RESP_MAX - STRETCH_RESP_MIN) * sn) * dt)
    linarith
  nlinarith [mul_nonneg hd0 ha0]

/-- Easing the stretch from `0` under a strictly positive wheel speed makes
it strictly positive at once. -/
lemma stretchStep_pos_of_ws (dt ws : ℝ) (hdt : 0 < dt) (hws : 0 < ws) :
    0 < stretchStep dt ws 0 := by
  unfold stretchStep
  dsimp only
  have hsn : 0 < clamp (ws / WHEEL_MAX_VEL) 0 1 := by
    have hdiv : 0 < ws / WHEEL_MAX_VEL := by
      unfold WHEEL_MAX_VEL
      positivity
    exact lt_of_lt_of_le (lt_min one_pos hdiv) (le_max_right _ _)
  have hd : 0 < clamp (clamp (ws / WHEEL_MAX_VEL) 0 1 ^ (0.62 : ℝ)) 0 1 := by
    have hp : 0 < clamp (ws / WHEEL_MAX_VEL) 0 1 ^ (0.62 : ℝ) :=
      Real.rpow_pos_of_pos hsn _
    exact lt_of_lt_of_le (lt_min one_pos hp) (le_max_right _ _)
  set sn := clamp (ws / WHEEL_MAX_VEL) 0 1
  have hrespdt : 0 < (STRETCH_RESP_MIN + (STRETCH_RESP_MAX - STRETCH_RESP_MIN) * sn) * dt := by
    unfold STRETCH_RESP_MIN STRETCH_RESP_MAX
    nlinarith
  have hapos : 0 < 1 - Real.exp (-(STRETCH_RESP_MIN + (STRETCH_RESP_MAX - STRETCH_RESP_MIN) * sn) * dt) := by
    have := Real.exp_lt_one_iff.mpr (by nlinarith :
      -(STRETCH_RESP_MIN + (STRETCH_RESP_MAX - STRETCH_RESP_MIN) * sn) * dt < 0)
    linarith
  nlinarith [mul_pos hd hapos]

/-- One tick's wheel decay factor `exp(-14/60)` is at least `1/3`. -/
lemma wheel_factor_lb : (1 / 3 : ℝ) ≤ Real.exp (-WHEEL_VEL_DECAY * (1 / 60)) := by
  have harg : -WHEEL_VEL_DECAY * (1 / 60 : ℝ) = -(7 / 30) := by
    unfold WHEEL_VEL_DECAY
    norm_num
  rw [harg]
  have h := Real.add_one_le_exp (-(7 / 30) : ℝ)
  linarith

lemma wheel_factor_nonneg : (0 : ℝ) ≤ Real.exp (-WHEEL_VEL_DECAY * (1 / 60)) :=
  le_of_lt (Real.exp_pos _)

/-- After sixty ticks of decay the initial wheel speed `275000` is far below
the snap threshold `5`: `275000 * exp(-14/60)^60 = 275000 * exp(-14) < 5`. -/
lemma wheel_factor_pow60 :
    (275000 : ℝ) * Real.exp (-WHEEL_VEL_DECAY * (1 / 60)) ^ (60 : ℕ) < 5 := by
  have harg : -WHEEL_VEL_DECAY * (1 / 60 : ℝ) = -(7 / 30) := by
    unfold WHEEL_VEL_DECAY
    norm_num
  rw [harg]
  have hpow : Real.exp (-(7 / 30) : ℝ) ^ (60 : ℕ) = Real.exp (-14) := by
    rw [← Real.exp_nat_mul]
    norm_num
  rw [hpow]
  have h14 : Real.exp (14 : ℝ) = Real.exp 1 ^ (14 : ℕ) := by
    rw [← Real.exp_nat_mul]
    norm_num
  have hgt : (55000 : ℝ) < Real.exp 14 := by
    rw [h14]
    have h1 : (5 / 2 : ℝ) < Real.exp 1 := by
      linarith [Real.exp_one_gt_d9]
    have h2 : (5 / 2 : ℝ) ^ (14 : ℕ) < Real.exp 1 ^ (14 : ℕ) :=
      pow_lt_pow_left h1 (by norm_num) (by norm_num)
    have h3 : (55000 : ℝ) < (5 / 2 : ℝ) ^ (14 : ℕ) := by norm_num
    linarith
  have hp : (0 : ℝ) < Real.exp 14 := Real.exp_pos _
  have hy : (0 : ℝ) < (Real.exp 14)⁻¹ := inv_pos.mpr hp
  have hid : Real.exp 14 * (Real.exp 14)⁻¹ = 1 := mul_inv_cancel₀ (ne_of_gt hp)
  rw [Real.exp_neg]
  nlinarith

/-- Trajectory of the wheel-impulse scenario: from the rest state, one
`onWheel(deltaY = 500)` (first wheel event, elapsed `0`), then `k` ticks at
`dt = 1/60`. -/
noncomputable def pickerScenarioState (k : ℕ) : PickerState :=
  (pickerTick (1 / 60))^[k] (pickerOnWheel 500 0 ⟨0, 0, 0, 1, 0, false⟩)

/-- The wheel event leaves target `500`, direction `1`, wheel speed
`0 + (|500| / 0.001 - 0) * 0.55 = 275000`, and the loop running. -/
lemma pickerScenarioState_zero :
    pickerScenarioState 0 = ⟨500, 0, 0, 1, 275000, true⟩ := by
  unfold pickerScenarioState pickerOnWheel
  rw [Function.iterate_zero_apply]
  have hmax : max (0.001 : ℝ) ((0 : ℝ) / 1000) = 0.001 := by norm_num
  simp only [hmax]
  norm_num

/-- Invariant of the wheel-impulse scenario trajectory: the wheel speed stays
nonnegative and, while the loop is running, under the geometric envelope
`275000 * exp(-14/60)^k`; a stopped state has wheel speed exactly `0`; the
target stays `500`; and from the first tick on the stretch is strictly
positive. -/
lemma pickerScenario_invariant (k : ℕ) :
    0 ≤ (pickerScenarioState k).ws ∧
    (pickerScenarioState k).target = 500 ∧
    ((pickerScenarioState k).running = true →
      (pickerScenarioState k).ws ≤
        275000 * Real.exp (-WHEEL_VEL_DECAY * (1 / 60)) ^ k) ∧
    ((pickerScenarioState k).running = false → (pickerScenarioState k).ws = 0) ∧
    (1 ≤ k → 0 < (pickerScenarioState k).stretch) := by
  induction k with
  | zero =>
    rw [pickerScenarioState_zero]
    refine ⟨by norm_num, rfl, ?_, ?_, by omega⟩
    · intro _
      norm_num
    · intro hfalse
      exact Bool.noConfusion hfalse
  | succ m ih =>
    obtain ⟨iws0, itgt, ibnd, istop, istr⟩ := ih
    have hstep : pickerScenarioState (m + 1) = pickerTick (1 / 60) (pickerScenarioState m) := by
      unfold pickerScenarioState
      rw [Function.iterate_succ_apply']
    by_cases hr : (pickerScenarioState m).running = true
    · have hws' : (pickerScenarioState (m + 1)).ws =
          wheelDecay (1 / 60) (pickerScenarioState m).ws := by
        rw [hstep, pickerTick_run_ws _ _ hr]
      have hst' : (pickerScenarioState (m + 1)).stretch =
          stretchStep (1 / 60) (wheelDecay (1 / 60) (pickerScenarioState m).ws)
            (pickerScenarioState m).stretch := by
        rw [hstep, pickerTick_run_stretch _ _ hr]
      refine ⟨?_, ?_, ?_, ?_, ?_⟩
      · rw [hws']
        exact wheelDecay_nonneg _ _ iws0
      · rw [hstep, pickerTick_run_target _ _ hr, itgt]
      · intro _
        rw [hws']
        have h1 := wheelDecay_le (1 / 60) (pickerScenarioState m).ws iws0
        have h2 := mul_le_mul_of_nonneg_right (ibnd hr) wheel_factor_nonneg
        have h3 : 275000 * Real.exp (-WHEEL_VEL_DECAY * (1 / 60)) ^ m *
            Real.exp (-WHEEL_VEL_DECAY * (1 / 60)) =
            275000 * Real.exp (-WHEEL_VEL_DECAY * (1 / 60)) ^ (m + 1) := by ring
        linarith
      · intro hrun0
        rw [hstep] at hrun0 ⊢
        exact pickerTick_run_stop _ _ hr hrun0
      · intro _
        rw [hst']
        rcases Nat.eq_zero_or_pos m with hm0 | hm1
        · subst hm0
          have hz := pickerScenarioState_zero
          rw [hz]
          have hnosnap : ¬ ((275000 : ℝ) * Real.exp (-WHEEL_VEL_DECAY * (1 / 60)) < 5) := by
            push_neg
            nlinarith [wheel_factor_lb]
          have hwd : wheelDecay (1 / 60) (275000 : ℝ) =
              275000 * Real.exp (-WHEEL_VEL_DECAY * (1 / 60)) := by
            unfold wheelDecay
            rw [if_neg hnosnap]
          show 0 < stretchStep (1 / 60) (wheelDecay (1 / 60)
            ((⟨500, 0, 0, 1, 275000, true⟩ : PickerState)).ws)
            ((⟨500, 0, 0, 1, 275000, true⟩ : PickerState)).stretch
          have hwpos : 0 < wheelDecay (1 / 60) (275000 : ℝ) := by
            rw [hwd]
            nlinarith [wheel_factor_lb]
          exact stretchStep_pos_of_ws _ _ (by norm_num) hwpos
        · exact stretchStep_pos_of_pos _ _ _ (by norm_num) (istr hm1)
    · have hrf : (pickerScenarioState m).running = false := by
        revert hr
        cases (pickerScenarioState m).running <;> simp
      have htick : pickerScenarioState (m + 1) = pickerScenarioState m := by
        rw [hstep, pickerTick_stopped _ _ hrf]
      rw [htick]
      refine ⟨iws0, itgt, ?_, istop, ?_⟩
      · intro htrue
        rw [hrf] at htrue
        exact Bool.noConfusion htrue
      · intro _
        rcases Nat.eq_zero_or_pos m with hm0 | hm1
        · subst hm0
          rw [pickerScenarioState_zero] at hrf
          exact Bool.noConfusion hrf
        · exact istr hm1

/-- C8 counterexample: in the claim's scenario (rest state, one
`onWheel(deltaY = 500)`, then one simulated second of ticks at `dt = 1/60`),
the stretch magnitude has not relaxed to `0`: it is still strictly
positive (the stretch only eases exponentially toward `0` after the wheel
speed snaps, and never reaches it). -/
theorem C8_counterexample : (pickerScenarioState 60).stretch ≠ 0 :=
  ne_of_gt ((pickerScenario_invariant 60).2.2.2.2 (by norm_num))

/-- C8 (amended): after the wheel impulse and one simulated second at
`dt = 1/60`, the wheel speed has been snapped to exactly `0` (it falls below
the `5` px/s threshold within the second), and the scroll target is
permanently advanced by `500` (the code adds `deltaY` directly, sensitivity
`1`); the stretch magnitude, however, is still strictly positive — decaying
toward `0` but not relaxed to it. -/
theorem C8_wheel_impulse_decay :
    (pickerScenarioState 60).ws = 0 ∧
    (pickerScenarioState 60).target = 500 ∧
    0 < (pickerScenarioState 60).stretch := by
  obtain ⟨iws0, itgt, ibnd, istop, istr⟩ := pickerScenario_invariant 59
  have hstep : pickerScenarioState 60 = pickerTick (1 / 60) (pickerScenarioState 59) := by
    unfold pickerScenarioState
    rw [Function.iterate_succ_apply']
  refine ⟨?_, (pickerScenario_invariant 60).2.1,
    (pickerScenario_invariant 60).2.2.2.2 (by norm_num)⟩
  by_cases hr : (pickerScenarioState 59).running = true
  · rw [hstep, pickerTick_run_ws _ _ hr]
    apply wheelDecay_snap
    have hb := ibnd hr
    have h2 := mul_le_mul_of_nonneg_right hb wheel_factor_nonneg
    have h3 : 275000 * Real.exp (-WHEEL_VEL_DECAY * (1 / 60)) ^ (59 : ℕ) *
        Real.exp (-WHEEL_VEL_DECAY * (1 / 60)) =
        275000 * Real.exp (-WHEEL_VEL_DECAY * (1 / 60)) ^ (60 : ℕ) := by ring
    linarith [wheel_factor_pow60]
  · have hrf : (pickerScenarioState 59).running = false := by
      revert hr
      cases (pickerScenarioState 59).running <;> simp
    rw [hstep, pickerTick_stopped _ _ hrf]
    exact istop hrf
